import Mathlib

/-!
Verification development for the temporal-rule parsing and evaluation core of
the sf-parking-map repository (file `time-parser.js`, given here as
`src/unnamed/part_002`; `src/unnamed/part_001` is a near-duplicate of the same
module without `calculateCoverage`).

The JavaScript source is shallowly embedded: JS numbers that can become `NaN`
are modelled by `JSNum`; field values that may be a string, a number, or
absent are modelled by `JSField`; JS strings are `List Char`; a JS `Set` of
numbers is an insertion-ordered duplicate-free `List Int` (exactly the
observable behaviour of `Set.add` / `Set.has` / `Set.size`); a thrown
exception is modelled by `Option.none` in the result type.
-/

/-- Model of a JavaScript number as used by the core: either `NaN` or an
integer (all numbers produced by the parsing code are integers or `NaN`). -/
inductive JSNum where
  | nan : JSNum
  | num : Int → JSNum
deriving DecidableEq, Repr

/-- JS `+` : any arithmetic with `NaN` yields `NaN`. -/
def JSNum.add : JSNum → JSNum → JSNum
  | .num a, .num b => .num (a + b)
  | _, _ => .nan

/-- JS `*` : any arithmetic with `NaN` yields `NaN`. -/
def JSNum.mul : JSNum → JSNum → JSNum
  | .num a, .num b => .num (a * b)
  | _, _ => .nan

/-- JS `<` : every comparison involving `NaN` is false. -/
def JSNum.ltb : JSNum → JSNum → Bool
  | .num a, .num b => decide (a < b)
  | _, _ => false

/-- JS `<=` : every comparison involving `NaN` is false. -/
def JSNum.leb : JSNum → JSNum → Bool
  | .num a, .num b => decide (a ≤ b)
  | _, _ => false

/-- JS `>=` : `a >= b` behaves as `b <= a` (false whenever `NaN` occurs). -/
def JSNum.geb (a b : JSNum) : Bool := JSNum.leb b a

/-- JS strict equality `===` on numbers: `NaN === x` is always false. -/
def JSNum.seq : JSNum → JSNum → Bool
  | .num a, .num b => decide (a = b)
  | _, _ => false

/-- JS `Math.max`: `NaN` if either argument is `NaN`. -/
def JSNum.maxJ : JSNum → JSNum → JSNum
  | .num a, .num b => .num (max a b)
  | _, _ => .nan

/-- JS `Math.min`: `NaN` if either argument is `NaN`. -/
def JSNum.minJ : JSNum → JSNum → JSNum
  | .num a, .num b => .num (min a b)
  | _, _ => .nan

/-- Value of a record field in the dataset: a string, a number, or absent
(`undefined` / `null`). -/
inductive JSField where
  | missing : JSField
  | str : String → JSField
  | num : Int → JSField
deriving DecidableEq, Repr

/-- JS truthiness of a field value: `undefined`, `""` and `0` are falsy. -/
def JSField.falsy : JSField → Bool
  | .missing => true
  | .str s => s.data.isEmpty
  | .num n => decide (n = 0)

/-- JS `a || b` on field values. -/
def jsFieldOr (a b : JSField) : JSField := if a.falsy then b else a

/-- A regulation record: the four fields of the feature properties that the
core reads (`props.days`, `props.hours`, `props.hrlimit`, `props.regulation`). -/
structure RegRecord where
  days : JSField
  hours : JSField
  hrlimit : JSField
  regulation : JSField
deriving DecidableEq, Repr

/-- The characters matched by `\s` in the JS regexes used by the source
(ASCII range; the dataset strings are ASCII). -/
def isSpaceJS (c : Char) : Bool :=
  c = ' ' || c = '\t' || c = '\n' || c = '\r' || c = '\x0b' || c = '\x0c'

/-- A character matched by the token-separator class `[,;\s]` of `parseDays`. -/
def isSepChar (c : Char) : Bool := c = ',' || c = ';' || isSpaceJS c

/-- Numeric value of a list of decimal digit characters (the effect of JS
`parseInt` on a digit string). -/
def digitsVal (cs : List Char) : Int :=
  cs.foldl (fun a c => a * 10 + ((c.toNat : Int) - 48)) 0

/-- JS `parseInt(x, 10)` restricted to the arguments the source feeds it:
`none` models `undefined` (which stringifies to "undefined" and yields `NaN`);
a string yields the value of its maximal leading digit run, or `NaN` when the
string does not start with a digit (e.g. ":30", "am", "pm"). -/
def parseIntJS : Option (List Char) → JSNum
  | none => .nan
  | some cs =>
    let ds := cs.takeWhile Char.isDigit
    if ds.isEmpty then .nan else .num (digitsVal ds)

/-- Check that `needle` is a prefix of the first argument. -/
def startsWithL : List Char → List Char → Bool
  | _, [] => true
  | [], _ :: _ => false
  | a :: as, b :: bs => a = b && startsWithL as bs

/-- Check that `needle` occurs as a contiguous substring (JS `includes`). -/
def containsSub : List Char → List Char → Bool
  | [], needle => needle.isEmpty
  | c :: rest, needle => startsWithL (c :: rest) needle || containsSub rest needle

/-- Split at every `'-'` character, keeping empty segments (JS `split('-')`). -/
def splitDashAux : List Char → List Char → List (List Char)
  | [], cur => [cur.reverse]
  | c :: rest, cur =>
    if c = '-' then cur.reverse :: splitDashAux rest []
    else splitDashAux rest (c :: cur)

/-- JS `part.split('-')`. -/
def splitDash (cs : List Char) : List (List Char) := splitDashAux cs []

mutual
/-- Accumulating worker for `splitSeps`: gathers the current token until a
separator run begins. -/
def splitSepsAux : List Char → List Char → List (List Char)
  | [], cur => [cur.reverse]
  | c :: rest, cur =>
    if isSepChar c then cur.reverse :: skipSeps rest
    else splitSepsAux rest (c :: cur)
/-- Consume the remainder of a separator run, then resume token gathering. -/
def skipSeps : List Char → List (List Char)
  | [] => [[]]
  | c :: rest =>
    if isSepChar c then skipSeps rest
    else splitSepsAux rest [c]
end

/-- JS `str.split(/[,;\s]+/)`: split on maximal runs of separators; a leading
or trailing run contributes an empty token, exactly as in JS. -/
def splitSeps (cs : List Char) : List (List Char) := splitSepsAux cs []

/-- JS `String.prototype.trim` (ASCII whitespace). -/
def trimJS (cs : List Char) : List Char :=
  ((cs.dropWhile isSpaceJS).reverse.dropWhile isSpaceJS).reverse

/-- The `DAY_MAP` lookup table of the source: uppercase day abbreviations to
weekday indices (0 = Sunday). `none` models an `undefined` lookup. -/
def dayMap : List Char → Option Int
  | ['S', 'U'] => some 0
  | ['M', 'O'] => some 1
  | ['M'] => some 1
  | ['T', 'U'] => some 2
  | ['W', 'E'] => some 3
  | ['W'] => some 3
  | ['T', 'H'] => some 4
  | ['F', 'R'] => some 5
  | ['F'] => some 5
  | ['S', 'A'] => some 6
  | _ => none

/-- JS `Set.add`: append the element unless already present (JS sets are
insertion-ordered, which this list representation preserves). -/
def jsSetAdd (s : List Int) (x : Int) : List Int :=
  if s.contains x then s else s ++ [x]

/-- The ascending list `[a, a+1, ..., b]`, empty when `a > b`: the index
sequence of the source's `for (let i = start; i <= end; i++)` loop. -/
def rangeList (a b : Int) : List Int :=
  (List.range (b + 1 - a).toNat).map fun i => a + (i : Int)

/-- Process one token of the `days` string: a hyphenated range adds every day
from its start index to its end index (nothing when start > end); a plain
token adds its mapped day; unrecognized tokens are skipped. Mirrors the loop
body of `parseDays` (part_002 lines 16-32). -/
def processPart (days : List Int) (part : List Char) : List Int :=
  if part.contains '-' then
    match splitDash part with
    | s1 :: s2 :: _ =>
      match dayMap (trimJS s1), dayMap (trimJS s2) with
      | some a, some b => (rangeList a b).foldl jsSetAdd days
      | _, _ => days
    | _ => days
  else
    match dayMap (trimJS part) with
    | some d => jsSetAdd days d
    | none => days

/-- The source's `parseDays` (part_002 lines 10-34): absent, non-string or
empty input yields `none` (the `Unrestricted` sentinel); otherwise the
uppercased input is split on `[,;\s]+` and each token processed; an empty
resulting set degrades to `none`. -/
def parseDays : JSField → Option (List Int)
  | .missing => none
  | .num _ => none
  | .str s =>
    if s.data.isEmpty then none
    else
      let parts := splitSeps (s.data.map Char.toUpper)
      let days := parts.foldl processPart []
      if 0 < days.length then some days else none

/-- A parsed time window: minutes from midnight for start and end. Either
component can be `NaN` (see `formatBWindow`). -/
structure TimeWindow where
  startMin : JSNum
  endMin : JSNum
deriving DecidableEq, Repr

/-- The all-day window `(0, 1440)` returned for absent/ANYTIME/24 HR input. -/
def allDayWindow : TimeWindow := ⟨.num 0, .num 1440⟩

/-- Decompose the cleaned time string per the Format A regex
`^(\d{3,4})-(\d{3,4})$`: exactly one dash, each side a run of 3 or 4 digits. -/
def formatADecomp (cs : List Char) : Option (List Char × List Char) :=
  match splitDash cs with
  | [a, b] =>
    if a.all Char.isDigit && decide (3 ≤ a.length) && decide (a.length ≤ 4) &&
       b.all Char.isDigit && decide (3 ≤ b.length) && decide (b.length ≤ 4) then
      some (a, b)
    else none
  | _ => none

/-- JS `padStart(4, '0')` on a string of length at most 4. -/
def padStart4 (cs : List Char) : List Char :=
  List.replicate (4 - cs.length) '0' ++ cs

/-- The four `parseInt` results of the Format A branch (part_002 lines 52-57):
each side is zero-padded to 4 characters and read as `HH` and `MM`. -/
def formatAParse (cs : List Char) : Option (Int × Int × Int × Int) :=
  (formatADecomp cs).map fun ab =>
    let sa := padStart4 ab.1
    let sb := padStart4 ab.2
    (digitsVal (sa.take 2), digitsVal ((sa.drop 2).take 2),
     digitsVal (sb.take 2), digitsVal ((sb.drop 2).take 2))

/-- The Format A result window (part_002 line 58). -/
def formatA (cs : List Char) : Option TimeWindow :=
  (formatAParse cs).map fun q =>
    ⟨.num (q.1 * 60 + q.2.1), .num (q.2.2.1 * 60 + q.2.2.2)⟩

/-- A meridiem marker captured by the Format B regex. -/
inductive AmPm where
  | am : AmPm
  | pm : AmPm
deriving DecidableEq, Repr

/-- The capture groups of one side of the Format B regex
`(\d{1,2})(:?(\d{2}))?(am|pm)?`: the hour digits, the text of the optional
minutes group (colon included when present), the inner minutes digits, and
the optional meridiem marker. -/
structure SideCaps where
  hour : List Char
  minsGroup : Option (List Char)
  minsDigits : Option (List Char)
  meridiem : Option AmPm
deriving DecidableEq, Repr

/-- Alternatives for the greedy `(\d{1,2})` hour group, in backtracking order:
two digits first, then one digit. Each alternative carries the remainder. -/
def hourAlts : List Char → List (List Char × List Char)
  | a :: b :: rest =>
    (if a.isDigit && b.isDigit then [([a, b], rest)] else []) ++
    (if a.isDigit then [([a], b :: rest)] else [])
  | [a] => if a.isDigit then [([a], [])] else []
  | [] => []

/-- Alternatives for the greedy optional group `(:?(\d{2}))?`, in backtracking
order: colon plus two digits, two digits, then the group unmatched. -/
def minsAlts (cs : List Char) : List ((Option (List Char) × Option (List Char)) × List Char) :=
  (match cs with
   | ':' :: a :: b :: rest =>
     if a.isDigit && b.isDigit then [((some [':', a, b], some [a, b]), rest)] else []
   | _ => []) ++
  (match cs with
   | a :: b :: rest =>
     if a.isDigit && b.isDigit then [((some [a, b], some [a, b]), rest)] else []
   | _ => []) ++
  [((none, none), cs)]

/-- Alternatives for the greedy optional group `(am|pm)?`, in backtracking
order: `am`, `pm`, then the group unmatched. -/
def ampmAlts (cs : List Char) : List (Option AmPm × List Char) :=
  (match cs with
   | 'a' :: 'm' :: rest => [(some AmPm.am, rest)]
   | _ => []) ++
  (match cs with
   | 'p' :: 'm' :: rest => [(some AmPm.pm, rest)]
   | _ => []) ++
  [(none, cs)]

/-- All ways one side of the Format B regex can match a prefix of the input,
in the backtracking order of the JS regex engine. -/
def sideAlts (cs : List Char) : List (SideCaps × List Char) :=
  (hourAlts cs).flatMap fun hr =>
    (minsAlts hr.2).flatMap fun mg =>
      (ampmAlts mg.2).map fun ap =>
        (⟨hr.1, mg.1.1, mg.1.2, ap.1⟩, ap.2)

/-- Match of the anchored Format B regex
`^(\d{1,2})(:?(\d{2}))?(am|pm)?-(\d{1,2})(:?(\d{2}))?(am|pm)?$`: the first
(in backtracking order) pair of side matches separated by `'-'` that consumes
the whole input, with the capture groups of both sides. -/
def formatB (cs : List Char) : Option (SideCaps × SideCaps) :=
  (sideAlts cs).findSome? fun c1 =>
    match c1.2 with
    | '-' :: rest =>
      (sideAlts rest).findSome? fun c2 =>
        if c2.2.isEmpty then some (c1.1, c2.1) else none
    | _ => none

/-- The string content of a captured meridiem group (`undefined` when the
group did not participate). -/
def ampmText : Option AmPm → Option (List Char)
  | none => none
  | some .am => some ['a', 'm']
  | some .pm => some ['p', 'm']

/-- JS `x || '0'` on an optional captured string. -/
def jsOrStr (o : Option (List Char)) (dflt : List Char) : List Char :=
  match o with
  | none => dflt
  | some s => if s.isEmpty then dflt else s

/-- JS `x === 'pm'`-style strict comparison of an optional captured string
with a string literal (`undefined === s` is false). -/
def optStrEq (o : Option (List Char)) (t : List Char) : Bool :=
  decide (o = some t)

/-- JS truthiness of an optional captured string. -/
def truthyStr : Option (List Char) → Bool
  | none => false
  | some s => !s.isEmpty

/-- The Format B window computation (part_002 lines 64-81), including the
source's destructuring `let [, h1, m1, ampm1, h2, m2, ampm2] = match`, which
skips the nested capture groups: `m1` receives group 2 (the minutes text,
colon included), `ampm1` receives group 3 (the minutes digits), `h2` receives
group 4 (the START side's meridiem marker), `m2` receives group 5 (the end
hour digits) and `ampm2` receives group 6 (the end side's minutes text).
Every subsequent line mirrors the source faithfully, dead branches included. -/
def formatBWindow (c1 c2 : SideCaps) : TimeWindow :=
  let h1 := c1.hour
  let m1 := c1.minsGroup
  let ampm1 := c1.minsDigits
  let h2 := ampmText c1.meridiem
  let m2 := c2.hour
  let ampm2 := c2.minsGroup
  let startHour := parseIntJS (some h1)
  let startMin := parseIntJS (some (jsOrStr m1 ['0']))
  let endHour := parseIntJS h2
  let endMin := parseIntJS (some (jsOrStr (some m2) ['0']))
  let startHour := if optStrEq ampm1 ['p', 'm'] && startHour.ltb (.num 12) then
    startHour.add (.num 12) else startHour
  let startHour := if optStrEq ampm1 ['a', 'm'] && startHour.seq (.num 12) then
    JSNum.num 0 else startHour
  let endHour := if optStrEq ampm2 ['p', 'm'] && endHour.ltb (.num 12) then
    endHour.add (.num 12) else endHour
  let endHour := if optStrEq ampm2 ['a', 'm'] && endHour.seq (.num 12) then
    JSNum.num 0 else endHour
  let startHour :=
    if truthyStr ampm2 && !truthyStr ampm1 then
      if endHour.ltb startHour || (endHour.seq startHour && endMin.ltb startMin) then
        if startHour.ltb (.num 12) then startHour.add (.num 12) else startHour
      else startHour
    else startHour
  ⟨(startHour.mul (.num 60)).add startMin, (endHour.mul (.num 60)).add endMin⟩

/-- The early all-day test of `parseTimeRange` (part_002 line 43): empty
string, or uppercase text containing `ANYTIME` or `24 HR`. -/
def timeAllDayCond (s : String) : Bool :=
  s.data.isEmpty ||
  containsSub (s.data.map Char.toUpper) ("ANYTIME".data) ||
  containsSub (s.data.map Char.toUpper) ("24 HR".data)

/-- JS `str.toLowerCase().replace(/\s/g, '')`. -/
def cleanTime (cs : List Char) : List Char :=
  (cs.map Char.toLower).filter fun c => !isSpaceJS c

/-- The source's `parseTimeRange` (part_002 lines 42-85): absent or
non-string input and ANYTIME/24 HR text yield the all-day window; otherwise
the cleaned string is tried against Format A then Format B; `none` models the
`null` returned when neither matches. -/
def parseTimeRange : JSField → Option TimeWindow
  | .missing => some allDayWindow
  | .num _ => some allDayWindow
  | .str s =>
    if timeAllDayCond s then some allDayWindow
    else
      let cleaned := cleanTime s.data
      match formatA cleaned with
      | some w => some w
      | none =>
        match formatB cleaned with
        | some caps => some (formatBWindow caps.1 caps.2)
        | none => none

/-- The three accessors of a JS `Date` that the core reads. A real `Date`
always satisfies `0 ≤ getDay < 7`, `0 ≤ getHours < 24`, `0 ≤ getMinutes < 60`
(see `JSDateValid`). -/
structure JSDate where
  getDay : Int
  getHours : Int
  getMinutes : Int
deriving DecidableEq, Repr

/-- The ranges guaranteed by the accessors of an actual JS `Date`. -/
def JSDateValid (d : JSDate) : Prop :=
  0 ≤ d.getDay ∧ d.getDay < 7 ∧ 0 ≤ d.getHours ∧ d.getHours < 24 ∧
  0 ≤ d.getMinutes ∧ d.getMinutes < 60

instance (d : JSDate) : Decidable (JSDateValid d) := by
  unfold JSDateValid; infer_instance

/-- Minutes since local midnight: `date.getHours() * 60 + date.getMinutes()`. -/
def nowMinutesOf (d : JSDate) : Int := d.getHours * 60 + d.getMinutes

/-- The source's `(dayOfWeek - 1 + 7) % 7` (part_002 line 119). -/
def yesterdayOf (dayOfWeek : Int) : Int := (dayOfWeek - 1 + 7) % 7

/-- The source's `isActiveAt` (part_002 lines 94-130): the four cases on
whether the day set and the time window are restricted, with overnight
windows (`endMin <= startMin`) wrapping past midnight and, when both are
restricted, the post-midnight part attributed to the previous weekday. -/
def isActiveAt (props : RegRecord) (date : JSDate) : Bool :=
  let activeDays := parseDays props.days
  let timeRange := parseTimeRange props.hours
  let dayOfWeek := date.getDay
  let nowMinutes := nowMinutesOf date
  match activeDays, timeRange with
  | none, none => true
  | none, some tr =>
    if tr.endMin.leb tr.startMin then
      (JSNum.num nowMinutes).geb tr.startMin || (JSNum.num nowMinutes).ltb tr.endMin
    else
      (JSNum.num nowMinutes).geb tr.startMin && (JSNum.num nowMinutes).ltb tr.endMin
  | some ds, none => ds.contains dayOfWeek
  | some ds, some tr =>
    let yesterday := yesterdayOf dayOfWeek
    if tr.endMin.leb tr.startMin then
      if ds.contains yesterday && (JSNum.num nowMinutes).ltb tr.endMin then true
      else if ds.contains dayOfWeek && (JSNum.num nowMinutes).geb tr.startMin then true
      else false
    else
      ds.contains dayOfWeek && (JSNum.num nowMinutes).geb tr.startMin &&
        (JSNum.num nowMinutes).ltb tr.endMin

/-- The source's `intersectsRange` (part_002 lines 140-171): false when the
day set excludes the query day; true when there is no time rule; otherwise a
half-open overlap test against the window, split in two segments around
midnight for an overnight window. -/
def intersectsRange (props : RegRecord) (start stop : JSDate) : Bool :=
  let activeDays := parseDays props.days
  let regTime := parseTimeRange props.hours
  let dayOfWeek := start.getDay
  if (match activeDays with
      | some ds => !ds.contains dayOfWeek
      | none => false) then false
  else
    match regTime with
    | none => true
    | some rt =>
      let userStartMin := nowMinutesOf start
      let userEndMin := nowMinutesOf stop
      if rt.endMin.leb rt.startMin then
        let overlaps1 := (JSNum.maxJ rt.startMin (.num userStartMin)).ltb
          (JSNum.minJ (.num 1440) (.num userEndMin))
        let overlaps2 := (JSNum.maxJ (.num 0) (.num userStartMin)).ltb
          (JSNum.minJ rt.endMin (.num userEndMin))
        overlaps1 || overlaps2
      else
        (JSNum.maxJ rt.startMin (.num userStartMin)).ltb
          (JSNum.minJ rt.endMin (.num userEndMin))

/-- Overlap minutes between the query interval and a present regulation
window (part_002 lines 213-240): the ANYTIME window covers the whole query,
an overnight window is split in two segments around midnight, and each
guarded accumulation only happens when the JS `<` comparison succeeds (hence
never on `NaN`). -/
def windowOverlap (rt : TimeWindow) (userStartMin userEndMin userDurationMin : Int) : Int :=
  if rt.startMin.seq (.num 0) && rt.endMin.seq (.num 1440) then
    userDurationMin
  else if rt.endMin.leb rt.startMin then
    let part1 : Int :=
      match JSNum.maxJ rt.startMin (.num userStartMin),
            JSNum.minJ (.num 1440) (.num userEndMin) with
      | .num a, .num b => if a < b then b - a else 0
      | _, _ => 0
    let part2 : Int :=
      match JSNum.maxJ (.num 0) (.num userStartMin),
            JSNum.minJ rt.endMin (.num userEndMin) with
      | .num a, .num b => if a < b then b - a else 0
      | _, _ => 0
    part1 + part2
  else
    match JSNum.maxJ rt.startMin (.num userStartMin),
          JSNum.minJ rt.endMin (.num userEndMin) with
    | .num a, .num b => if a < b then b - a else 0
    | _, _ => 0

/-- The full `overlapMinutes` computation of `calculateCoverage` (part_002
lines 208-240): an absent time rule regulates the whole query duration. -/
def coverageOverlap (regTime : Option TimeWindow) (userStartMin userEndMin userDurationMin : Int) : Int :=
  match regTime with
  | none => userDurationMin
  | some rt => windowOverlap rt userStartMin userEndMin userDurationMin

/-- The source's `regulationAppliesToday` test (part_002 line 197):
`!activeDays || activeDays.has(dayOfWeek)`. -/
def appliesToday (activeDays : Option (List Int)) (dayOfWeek : Int) : Bool :=
  match activeDays with
  | none => true
  | some ds => ds.contains dayOfWeek

/-- JS `(field || '').toLowerCase()`: a falsy field gives the empty string, a
string is lowercased, and a truthy number throws a `TypeError` (numbers have
no `toLowerCase` method), modelled by `none`. -/
def toLowerCaseField : JSField → Option (List Char)
  | .missing => some []
  | .num n => if n = 0 then some [] else none
  | .str s => some (s.data.map Char.toLower)

/-- Match of `no\s*parking` at the head of the text. -/
def matchNoParkingAt : List Char → Bool
  | 'n' :: 'o' :: rest => startsWithL (rest.dropWhile isSpaceJS) ("parking".data)
  | _ => false

/-- Match of `tow-?away` at the head of the text. -/
def matchTowAwayAt : List Char → Bool
  | 't' :: 'o' :: 'w' :: rest =>
    startsWithL rest ("away".data) ||
    (match rest with
     | '-' :: r => startsWithL r ("away".data)
     | _ => false)
  | _ => false

/-- JS `/no\s*parking|tow-?away/.test(regulation)`: an unanchored search for
either pattern (part_002 line 205). -/
def testNoParking : List Char → Bool
  | [] => false
  | c :: rest => matchNoParkingAt (c :: rest) || matchTowAwayAt (c :: rest) || testNoParking rest

/-- First maximal run of decimal digits in the text: the capture of the JS
regex `(\d+)` under `String.match`. -/
def firstDigitRun : List Char → Option (List Char)
  | [] => none
  | c :: rest =>
    if c.isDigit then some ((c :: rest).takeWhile Char.isDigit)
    else firstDigitRun rest

/-- The hour-limit extraction of `calculateCoverage` (part_002 lines 254-264):
`props.hrlimit || props.hours`, then the first integer of a truthy string
times 60, or a numeric field times 60; `none` when no limit is found. -/
def extractLimit (props : RegRecord) : Option Int :=
  let timeLimit := jsFieldOr props.hrlimit props.hours
  match timeLimit with
  | .str s =>
    if !s.data.isEmpty then
      match firstDigitRun s.data with
      | some ds => some (digitsVal ds * 60)
      | none => none
    else none
  | .num n => some (n * 60)
  | .missing => none

/-- The body of `calculateCoverage` after the regulation text has been
lowercased (part_002 lines 190-277), as an exact rational. -/
def coverageBody (activeDays : Option (List Int)) (regTime : Option TimeWindow)
    (dayOfWeek : Int) (regulation : List Char) (props : RegRecord)
    (userStartMin userEndMin : Int) : ℚ :=
  let userDurationMin := userEndMin - userStartMin
  if userDurationMin ≤ 0 then 0
  else if !appliesToday activeDays dayOfWeek then 1
  else
    let isNoParking := testNoParking regulation
    let overlapMinutes := coverageOverlap regTime userStartMin userEndMin userDurationMin
    if overlapMinutes = 0 then 1
    else if isNoParking then
      ((userDurationMin - overlapMinutes : Int) : ℚ) / ((userDurationMin : Int) : ℚ)
    else
      match extractLimit props with
      | some timeLimitMinutes =>
        if timeLimitMinutes ≠ 0 ∧ 0 < overlapMinutes then
          let allowedMinutes := min timeLimitMinutes overlapMinutes
          let freeMinutes := (userDurationMin - overlapMinutes) + allowedMinutes
          min 1 ((freeMinutes : ℚ) / ((userDurationMin : Int) : ℚ))
        else
          ((userDurationMin - overlapMinutes : Int) : ℚ) / ((userDurationMin : Int) : ℚ)
      | none =>
        ((userDurationMin - overlapMinutes : Int) : ℚ) / ((userDurationMin : Int) : ℚ)

/-- The source's `calculateCoverage` (part_002 lines 184-278). The result is
`none` exactly when line 188, `(props.regulation || '').toLowerCase()`,
throws a `TypeError` (truthy numeric regulation field); otherwise `some` of
the coverage ratio. -/
def calculateCoverage (props : RegRecord) (start stop : JSDate) : Option ℚ :=
  (toLowerCaseField props.regulation).map fun regulation =>
    coverageBody (parseDays props.days) (parseTimeRange props.hours)
      start.getDay regulation props (nowMinutesOf start) (nowMinutesOf stop)

/-- The spec's end-to-end no-parking record:
`{days:"M-F", hours:"0900-1800", regulation:"No parking 9am-6pm"}`. -/
def recNP : RegRecord := ⟨.str "M-F", .str "0900-1800", .missing, .str "No parking 9am-6pm"⟩

/-- The spec's end-to-end hour-limit record:
`{days:"M-F", hours:"0900-1800", hrlimit:"2"}`. -/
def recHL : RegRecord := ⟨.str "M-F", .str "0900-1800", .str "2", .missing⟩

/-- A Saturday-only record with no hour or regulation text. -/
def recSA : RegRecord := ⟨.str "SA", .missing, .missing, .missing⟩

/-- A record whose hours string `2200-0600` parses to the overnight window
`(1320, 360)`. -/
def recNight : RegRecord := ⟨.missing, .str "2200-0600", .missing, .missing⟩

@[simp] theorem JSNum.leb_num (a b : Int) : (JSNum.num a).leb (JSNum.num b) = decide (a ≤ b) := rfl

@[simp] theorem JSNum.ltb_num (a b : Int) : (JSNum.num a).ltb (JSNum.num b) = decide (a < b) := rfl

@[simp] theorem JSNum.seq_num (a b : Int) : (JSNum.num a).seq (JSNum.num b) = decide (a = b) := rfl

@[simp] theorem JSNum.geb_def (a b : JSNum) : a.geb b = b.leb a := rfl

@[simp] theorem JSNum.leb_nan_left (x : JSNum) : JSNum.nan.leb x = false := by cases x <;> rfl

@[simp] theorem JSNum.leb_nan_right (x : JSNum) : x.leb .nan = false := by cases x <;> rfl

@[simp] theorem JSNum.ltb_nan_left (x : JSNum) : JSNum.nan.ltb x = false := by cases x <;> rfl

@[simp] theorem JSNum.ltb_nan_right (x : JSNum) : x.ltb .nan = false := by cases x <;> rfl

@[simp] theorem JSNum.seq_nan_left (x : JSNum) : JSNum.nan.seq x = false := by cases x <;> rfl

@[simp] theorem JSNum.seq_nan_right (x : JSNum) : x.seq .nan = false := by cases x <;> rfl

@[simp] theorem JSNum.maxJ_num (a b : Int) : (JSNum.num a).maxJ (JSNum.num b) = .num (max a b) := rfl

@[simp] theorem JSNum.minJ_num (a b : Int) : (JSNum.num a).minJ (JSNum.num b) = .num (min a b) := rfl

@[simp] theorem JSNum.minJ_nan_left (x : JSNum) : JSNum.nan.minJ x = .nan := by cases x <;> rfl

@[simp] theorem JSNum.maxJ_nan_left (x : JSNum) : JSNum.nan.maxJ x = .nan := by cases x <;> rfl

@[simp] theorem JSNum.minJ_nan_right (x : JSNum) : x.minJ .nan = .nan := by cases x <;> rfl

@[simp] theorem JSNum.maxJ_nan_right (x : JSNum) : x.maxJ .nan = .nan := by cases x <;> rfl

@[simp] theorem JSNum.mul_nan_left (x : JSNum) : JSNum.nan.mul x = .nan := by cases x <;> rfl

@[simp] theorem JSNum.add_nan_left (x : JSNum) : JSNum.nan.add x = .nan := by cases x <;> rfl

/-- Rewriting `calculateCoverage` to its body once the regulation text is
known to lowercase successfully. -/
theorem coverage_eq_some (r : RegRecord) (a b : JSDate) (rl : List Char)
    (h : toLowerCaseField r.regulation = some rl) :
    calculateCoverage r a b =
      some (coverageBody (parseDays r.days) (parseTimeRange r.hours)
        a.getDay rl r (nowMinutesOf a) (nowMinutesOf b)) := by
  unfold calculateCoverage
  rw [h]
  rfl

/-- The overlap computation never returns a negative count when the query
duration is nonnegative. -/
theorem windowOverlap_nonneg (rt : TimeWindow) (us ue dur : Int) (h : 0 ≤ dur) :
    0 ≤ windowOverlap rt us ue dur := by
  obtain ⟨sm, em⟩ := rt
  unfold windowOverlap
  cases sm <;> cases em <;> simp <;> split_ifs <;> omega

/-- The full overlap computation never returns a negative count. -/
theorem coverageOverlap_nonneg (rt : Option TimeWindow) (us ue dur : Int) (h : 0 ≤ dur) :
    0 ≤ coverageOverlap rt us ue dur := by
  cases rt with
  | none => exact h
  | some rt => exact windowOverlap_nonneg rt us ue dur h

/-- In the no-parking case (day set applies, regulation text matches the
pattern, positive duration), the coverage is `(duration - overlap)/duration`;
this also covers the zero-overlap early return, where the formula equals 1. -/
theorem coverageBody_noParking (ad : Option (List Int)) (rt : Option TimeWindow)
    (day : Int) (rl : List Char) (props : RegRecord) (us ue : Int)
    (hdur : 0 < ue - us) (happ : appliesToday ad day = true)
    (hnp : testNoParking rl = true) :
    coverageBody ad rt day rl props us ue =
      ((ue - us - coverageOverlap rt us ue (ue - us) : Int) : ℚ) /
        ((ue - us : Int) : ℚ) := by
  simp only [coverageBody]
  rw [if_neg (by omega : ¬(ue - us ≤ 0)), happ]
  simp only [Bool.not_true, Bool.false_eq_true, if_false]
  by_cases h0 : coverageOverlap rt us ue (ue - us) = 0
  · rw [if_pos h0, h0, sub_zero, div_self]
    exact Int.cast_ne_zero.mpr (by omega)
  · rw [if_neg h0, if_pos hnp]

/-- In the hour-limit case (day set applies, not a no-parking regulation, a
nonnegative limit extracted, positive duration), the coverage is
`min 1 ((duration - overlap + min limit overlap)/duration)`; the formula also
covers the zero-overlap early return and the falsy zero-limit branch. -/
theorem coverageBody_limit (ad : Option (List Int)) (rt : Option TimeWindow)
    (day : Int) (rl : List Char) (props : RegRecord) (us ue L : Int)
    (hdur : 0 < ue - us) (happ : appliesToday ad day = true)
    (hnp : testNoParking rl = false) (hex : extractLimit props = some L)
    (hL : 0 ≤ L) :
    coverageBody ad rt day rl props us ue =
      min 1 (((ue - us - coverageOverlap rt us ue (ue - us) +
        min L (coverageOverlap rt us ue (ue - us)) : Int) : ℚ) /
        ((ue - us : Int) : ℚ)) := by
  have hovnn : 0 ≤ coverageOverlap rt us ue (ue - us) :=
    coverageOverlap_nonneg rt us ue (ue - us) (by omega)
  have hcast : ((ue - us : Int) : ℚ) ≠ 0 := Int.cast_ne_zero.mpr (by omega)
  have hcastpos : (0 : ℚ) < ((ue - us : Int) : ℚ) := by
    exact_mod_cast hdur
  have hovnn2 : 0 ≤ coverageOverlap rt us ue (ue - us) := hovnn
  simp only [coverageBody]
  rw [if_neg (by omega : ¬(ue - us ≤ 0)), happ]
  simp only [Bool.not_true, Bool.false_eq_true, if_false]
  by_cases h0 : coverageOverlap rt us ue (ue - us) = 0
  · rw [if_pos h0, h0, min_eq_right hL, sub_zero, add_zero, div_self hcast, min_self]
  · have hpos : 0 < coverageOverlap rt us ue (ue - us) := lt_of_le_of_ne hovnn (Ne.symm h0)
    rw [if_neg h0, if_neg (by simp [hnp])]
    simp only [hex]
    by_cases hL0 : L = 0
    · rw [if_neg (by simp [hL0]), hL0, min_eq_left hovnn, add_zero]
      rw [min_eq_right]
      rw [div_le_one hcastpos]
      exact_mod_cast (by omega : ue - us - coverageOverlap rt us ue (ue - us) ≤ ue - us)
    · rw [if_pos ⟨hL0, hpos⟩]

/-- When the same half-open overlap tests used by `intersectsRange` all fail,
the overlap count computed by `calculateCoverage` is zero. The validity
bounds `0 ≤ us` and `ue < 1440` are those of minutes-of-day read from a real
JS `Date`; `us < ue` rules out the degenerate ANYTIME case. -/
theorem windowOverlap_zero_of_no_intersect (rt : TimeWindow) (us ue : Int)
    (h0 : 0 ≤ us) (h1 : ue < 1440) (hlt : us < ue)
    (hover : rt.endMin.leb rt.startMin = true →
      (JSNum.maxJ rt.startMin (.num us)).ltb (JSNum.minJ (.num 1440) (.num ue)) = false ∧
      (JSNum.maxJ (.num 0) (.num us)).ltb (JSNum.minJ rt.endMin (.num ue)) = false)
    (hsame : rt.endMin.leb rt.startMin = false →
      (JSNum.maxJ rt.startMin (.num us)).ltb (JSNum.minJ rt.endMin (.num ue)) = false) :
    windowOverlap rt us ue (ue - us) = 0 := by
  obtain ⟨sm, em⟩ := rt
  unfold windowOverlap
  cases sm <;> cases em <;> simp_all <;> omega

/-- The Format B window always carries a `NaN` end minute: the end hour is
`parseInt` of the start side's meridiem capture (either `undefined`, `"am"`
or `"pm"`), all of which are `NaN`, and no later adjustment can fire on it. -/
theorem formatBWindow_endMin_nan (c1 c2 : SideCaps) :
    (formatBWindow c1 c2).endMin = JSNum.nan := by
  obtain ⟨h1, mg1, md1, ap1⟩ := c1
  unfold formatBWindow
  cases ap1 with
  | none => simp [ampmText, parseIntJS]
  | some x => cases x <;> simp [ampmText, parseIntJS]

/-- A window with a `NaN` end minute never makes `isActiveAt` true: both the
overnight test and the same-day upper-bound comparison are false on `NaN`. -/
theorem isActiveAt_nan_end (r : RegRecord) (d : JSDate) (w : TimeWindow)
    (hw : parseTimeRange r.hours = some w) (hnan : w.endMin = JSNum.nan) :
    isActiveAt r d = false := by
  obtain ⟨sm, em⟩ := w
  subst hnan
  unfold isActiveAt
  rw [hw]
  cases hd : parseDays r.days <;> simp

/-- A window with a `NaN` end minute contributes zero overlap minutes in
`calculateCoverage`. -/
theorem windowOverlap_nan_end (w : TimeWindow) (us ue dur : Int)
    (hnan : w.endMin = JSNum.nan) : windowOverlap w us ue dur = 0 := by
  obtain ⟨sm, em⟩ := w
  subst hnan
  unfold windowOverlap
  cases sm <;> simp

/-- Bounds of the minutes-of-day of a real JS `Date`. -/
theorem nowMinutes_bounds (d : JSDate) (h : JSDateValid d) :
    0 ≤ nowMinutesOf d ∧ nowMinutesOf d < 1440 := by
  unfold JSDateValid at h
  unfold nowMinutesOf
  omega

/-- The time-overlap test of `intersectsRange` returning false forces the
overlap count of `calculateCoverage` to zero. -/
theorem windowOverlap_zero_of_test_false (rt : TimeWindow) (us ue : Int)
    (h0 : 0 ≤ us) (h1 : ue < 1440) (hlt : us < ue)
    (hint : (if rt.endMin.leb rt.startMin then
        ((JSNum.maxJ rt.startMin (.num us)).ltb (JSNum.minJ (.num 1440) (.num ue)) ||
         (JSNum.maxJ (.num 0) (.num us)).ltb (JSNum.minJ rt.endMin (.num ue)))
      else
        (JSNum.maxJ rt.startMin (.num us)).ltb (JSNum.minJ rt.endMin (.num ue))) = false) :
    windowOverlap rt us ue (ue - us) = 0 := by
  by_cases hle : rt.endMin.leb rt.startMin = true
  · rw [if_pos hle] at hint
    simp only [Bool.or_eq_false_iff] at hint
    exact windowOverlap_zero_of_no_intersect rt us ue h0 h1 hlt (fun _ => hint)
      (fun hc => absurd hle (by simp [hc]))
  · rw [if_neg hle] at hint
    exact windowOverlap_zero_of_no_intersect rt us ue h0 h1 hlt
      (fun hc => absurd hc (by simpa using hle)) (fun _ => hint)

/-- C6 (amended): for every record whose regulation field lowercases without
throwing, and valid Dates spanning a positive same-day duration, a false
`intersectsRange` forces `calculateCoverage` to return 1. -/
theorem c6_no_intersection_full_coverage (r : RegRecord) (a b : JSDate) (rl : List Char)
    (hva : JSDateValid a) (hvb : JSDateValid b)
    (hdur : nowMinutesOf a < nowMinutesOf b)
    (hrl : toLowerCaseField r.regulation = some rl)
    (hint : intersectsRange r a b = false) :
    calculateCoverage r a b = some 1 := by
  obtain ⟨hus0, hus1⟩ := nowMinutes_bounds a hva
  obtain ⟨hue0, hue1⟩ := nowMinutes_bounds b hvb
  rw [coverage_eq_some r a b rl hrl]
  simp only [Option.some.injEq]
  cases hd : parseDays r.days with
  | none =>
    cases ht : parseTimeRange r.hours with
    | none =>
      simp only [intersectsRange, hd, ht, Bool.false_eq_true, if_false] at hint
      exact absurd hint (by simp)
    | some rt =>
      simp only [intersectsRange, hd, ht, Bool.false_eq_true, if_false] at hint
      have hov := windowOverlap_zero_of_test_false rt (nowMinutesOf a) (nowMinutesOf b)
        hus0 hue1 hdur hint
      simp only [coverageBody, hd, ht, appliesToday, coverageOverlap]
      rw [if_neg (by omega : ¬(nowMinutesOf b - nowMinutesOf a ≤ 0))]
      simp only [Bool.not_true, Bool.false_eq_true, if_false]
      rw [if_pos hov]
  | some ds =>
    by_cases hmem : ds.contains a.getDay = true
    · cases ht : parseTimeRange r.hours with
      | none =>
        simp only [intersectsRange, hd, ht, hmem, Bool.not_true, Bool.false_eq_true,
          if_false] at hint
        exact absurd hint (by simp)
      | some rt =>
        simp only [intersectsRange, hd, ht, hmem, Bool.not_true, Bool.false_eq_true,
          if_false] at hint
        have hov := windowOverlap_zero_of_test_false rt (nowMinutesOf a) (nowMinutesOf b)
          hus0 hue1 hdur hint
        simp only [coverageBody, hd, ht, appliesToday, coverageOverlap]
        rw [if_neg (by omega : ¬(nowMinutesOf b - nowMinutesOf a ≤ 0))]
        rw [hmem]
        simp only [Bool.not_true, Bool.false_eq_true, if_false]
        rw [if_pos hov]
    · simp only [Bool.not_eq_true] at hmem
      simp only [coverageBody, hd, appliesToday]
      rw [if_neg (by omega : ¬(nowMinutesOf b - nowMinutesOf a ≤ 0))]
      rw [hmem]
      simp

/-- C1: contrary to the spec, `parseTimeRange("8am-6pm")` does not return
`(480, 1080)`: the destructuring of the Format B match skips the nested
capture groups, so the end hour is `parseInt("am")` = `NaN` and the returned
window is `{startMin: 480, endMin: NaN}`. This evaluates the code at the
failing input of the code_bug verdict. -/
theorem c1_format_b_8am6pm_nan :
    parseTimeRange (.str "8am-6pm") = some ⟨.num 480, JSNum.nan⟩ := by decide

/-- C2: the spec's parser calibration examples all hold on the code:
`parseDays` on "M-F", "SA,SU", "" and absent input, and `parseTimeRange` on
"0900-1800", "ANYTIME" and "garbage". -/
theorem c2_parser_calibration :
    parseDays (.str "M-F") = some [1, 2, 3, 4, 5] ∧
    parseDays (.str "SA,SU") = some [6, 0] ∧
    parseDays (.str "") = none ∧
    parseDays .missing = none ∧
    parseTimeRange (.str "0900-1800") = some ⟨.num 540, .num 1080⟩ ∧
    parseTimeRange (.str "ANYTIME") = some ⟨.num 0, .num 1440⟩ ∧
    parseTimeRange (.str "garbage") = none := by
  refine ⟨by decide, by decide, by decide, rfl, by decide, by decide, by decide⟩

/-- C3: `isActiveAt` handles overnight windows as specified: with only the
time restricted, an overnight window (`end <= start`) is active iff
`minute >= start` or `minute < end` (a same-day window iff
`start <= minute < end`); with both day and time restricted and an overnight
window, active iff yesterday's weekday is in the set and `minute < end`, or
today's weekday is in the set and `minute >= start`; and the window
`(1320, 360)` with no day restriction is active at minutes 0 and 1380 and
inactive at minute 600. -/
theorem c3_isActiveAt_overnight :
    (∀ (r : RegRecord) (d : JSDate) (s e : Int),
      parseDays r.days = none →
      parseTimeRange r.hours = some ⟨.num s, .num e⟩ →
      e ≤ s →
      (isActiveAt r d = true ↔ (s ≤ nowMinutesOf d ∨ nowMinutesOf d < e))) ∧
    (∀ (r : RegRecord) (d : JSDate) (s e : Int),
      parseDays r.days = none →
      parseTimeRange r.hours = some ⟨.num s, .num e⟩ →
      s < e →
      (isActiveAt r d = true ↔ (s ≤ nowMinutesOf d ∧ nowMinutesOf d < e))) ∧
    (∀ (r : RegRecord) (d : JSDate) (ds : List Int) (s e : Int),
      parseDays r.days = some ds →
      parseTimeRange r.hours = some ⟨.num s, .num e⟩ →
      e ≤ s →
      (isActiveAt r d = true ↔
        ((ds.contains (yesterdayOf d.getDay) = true ∧ nowMinutesOf d < e) ∨
         (ds.contains d.getDay = true ∧ s ≤ nowMinutesOf d)))) ∧
    (isActiveAt recNight ⟨1, 0, 0⟩ = true ∧
     isActiveAt recNight ⟨1, 23, 0⟩ = true ∧
     isActiveAt recNight ⟨1, 10, 0⟩ = false) := by
  refine ⟨?_, ?_, ?_, by decide, by decide, by decide⟩
  · intro r d s e hd ht hle
    simp only [isActiveAt, hd, ht, JSNum.geb_def, JSNum.leb_num, JSNum.ltb_num]
    simp [hle]
  · intro r d s e hd ht hlt
    simp only [isActiveAt, hd, ht, JSNum.geb_def, JSNum.leb_num, JSNum.ltb_num]
    rw [if_neg (by simpa using (by omega : ¬ e ≤ s))]
    simp
  · intro r d ds s e hd ht hle
    simp only [isActiveAt, hd, ht, JSNum.geb_def, JSNum.leb_num, JSNum.ltb_num]
    cases hcy : ds.contains (yesterdayOf d.getDay) <;>
      cases hcd : ds.contains d.getDay <;>
      simp [hle, hcy, hcd]

/-- Witness for C3: the general overnight clauses applied to the concrete
window `(1320, 360)` from the hours string "2200-0600". -/
theorem c3_isActiveAt_overnight_witness :
    (isActiveAt recNight ⟨1, 23, 0⟩ = true ↔
      ((1320 : Int) ≤ nowMinutesOf ⟨1, 23, 0⟩ ∨ nowMinutesOf ⟨1, 23, 0⟩ < 360)) ∧
    (isActiveAt ⟨.str "SU", .str "2200-0600", .missing, .missing⟩ ⟨1, 0, 30⟩ = true ↔
      ((([0] : List Int).contains (yesterdayOf (1 : Int)) = true ∧
        nowMinutesOf ⟨1, 0, 30⟩ < 360) ∨
       (([0] : List Int).contains (1 : Int) = true ∧
        (1320 : Int) ≤ nowMinutesOf ⟨1, 0, 30⟩))) :=
  ⟨c3_isActiveAt_overnight.1 recNight ⟨1, 23, 0⟩ 1320 360 (by decide) (by decide) (by decide),
   c3_isActiveAt_overnight.2.2.1 ⟨.str "SU", .str "2200-0600", .missing, .missing⟩
     ⟨1, 0, 30⟩ [0] 1320 360 (by decide) (by decide) (by decide)⟩

/-- C4: for a record whose regulation text matches the no-parking/tow-away
pattern and whose day set includes the query weekday, the coverage over a
positive-duration query is `(duration - overlap)/duration`; in particular the
spec's record gives 0.5 for Monday 08:00-10:00 and 1.0 for Monday
20:00-21:00. -/
theorem c4_no_parking_coverage :
    (∀ (r : RegRecord) (a b : JSDate) (ds : List Int) (rl : List Char),
      0 < nowMinutesOf b - nowMinutesOf a →
      parseDays r.days = some ds →
      ds.contains a.getDay = true →
      toLowerCaseField r.regulation = some rl →
      testNoParking rl = true →
      calculateCoverage r a b =
        some (((nowMinutesOf b - nowMinutesOf a -
          coverageOverlap (parseTimeRange r.hours) (nowMinutesOf a)
            (nowMinutesOf b) (nowMinutesOf b - nowMinutesOf a) : Int) : ℚ) /
          ((nowMinutesOf b - nowMinutesOf a : Int) : ℚ))) ∧
    calculateCoverage recNP ⟨1, 8, 0⟩ ⟨1, 10, 0⟩ = some (1 / 2) ∧
    calculateCoverage recNP ⟨1, 20, 0⟩ ⟨1, 21, 0⟩ = some 1 := by
  have hgen : ∀ (r : RegRecord) (a b : JSDate) (ds : List Int) (rl : List Char),
      0 < nowMinutesOf b - nowMinutesOf a →
      parseDays r.days = some ds →
      ds.contains a.getDay = true →
      toLowerCaseField r.regulation = some rl →
      testNoParking rl = true →
      calculateCoverage r a b =
        some (((nowMinutesOf b - nowMinutesOf a -
          coverageOverlap (parseTimeRange r.hours) (nowMinutesOf a)
            (nowMinutesOf b) (nowMinutesOf b - nowMinutesOf a) : Int) : ℚ) /
          ((nowMinutesOf b - nowMinutesOf a : Int) : ℚ)) := by
    intro r a b ds rl hdur hd hmem hrl hnp
    rw [coverage_eq_some r a b rl hrl]
    rw [coverageBody_noParking (parseDays r.days) (parseTimeRange r.hours)
      a.getDay rl r (nowMinutesOf a) (nowMinutesOf b) hdur
      (by rw [hd]; simpa [appliesToday] using hmem) hnp]
  refine ⟨hgen, ?_, by rfl⟩
  have h1 := hgen recNP ⟨1, 8, 0⟩ ⟨1, 10, 0⟩ [1, 2, 3, 4, 5]
    ("no parking 9am-6pm".data) (by decide) (by decide) (by decide) (by decide) (by decide)
  rw [h1]
  rw [show coverageOverlap (parseTimeRange recNP.hours) (nowMinutesOf ⟨1, 8, 0⟩)
      (nowMinutesOf ⟨1, 10, 0⟩) (nowMinutesOf ⟨1, 10, 0⟩ - nowMinutesOf ⟨1, 8, 0⟩) = 60
    from by decide]
  norm_num [nowMinutesOf]

/-- Witness for C4: the general no-parking formula applied to the spec's
record at the Monday 08:00-10:00 query. -/
theorem c4_no_parking_coverage_witness :
    calculateCoverage recNP ⟨1, 8, 0⟩ ⟨1, 10, 0⟩ =
      some (((nowMinutesOf ⟨1, 10, 0⟩ - nowMinutesOf ⟨1, 8, 0⟩ -
        coverageOverlap (parseTimeRange recNP.hours) (nowMinutesOf ⟨1, 8, 0⟩)
          (nowMinutesOf ⟨1, 10, 0⟩)
          (nowMinutesOf ⟨1, 10, 0⟩ - nowMinutesOf ⟨1, 8, 0⟩) : Int) : ℚ) /
        ((nowMinutesOf ⟨1, 10, 0⟩ - nowMinutesOf ⟨1, 8, 0⟩ : Int) : ℚ)) :=
  c4_no_parking_coverage.1 recNP ⟨1, 8, 0⟩ ⟨1, 10, 0⟩ [1, 2, 3, 4, 5]
    ("no parking 9am-6pm".data) (by decide) (by decide) (by decide) (by decide) (by decide)

/-- C5: for a record that applies on the query day, is not classified
no-parking, and from which an hour limit is extracted (`hrlimit`, else the
`hours` field; nonnegative, as regex extraction always is), coverage is
`min 1 ((duration - overlap + min limit overlap)/duration)`; in particular
the spec's hour-limit record gives 0.5 for Monday 09:00-13:00. -/
theorem c5_hour_limit_coverage :
    (∀ (r : RegRecord) (a b : JSDate) (rl : List Char) (L : Int),
      0 < nowMinutesOf b - nowMinutesOf a →
      appliesToday (parseDays r.days) a.getDay = true →
      toLowerCaseField r.regulation = some rl →
      testNoParking rl = false →
      extractLimit r = some L →
      0 ≤ L →
      calculateCoverage r a b =
        some (min 1 (((nowMinutesOf b - nowMinutesOf a -
          coverageOverlap (parseTimeRange r.hours) (nowMinutesOf a)
            (nowMinutesOf b) (nowMinutesOf b - nowMinutesOf a) +
          min L (coverageOverlap (parseTimeRange r.hours) (nowMinutesOf a)
            (nowMinutesOf b) (nowMinutesOf b - nowMinutesOf a)) : Int) : ℚ) /
          ((nowMinutesOf b - nowMinutesOf a : Int) : ℚ)))) ∧
    calculateCoverage recHL ⟨1, 9, 0⟩ ⟨1, 13, 0⟩ = some (1 / 2) := by
  have hgen : ∀ (r : RegRecord) (a b : JSDate) (rl : List Char) (L : Int),
      0 < nowMinutesOf b - nowMinutesOf a →
      appliesToday (parseDays r.days) a.getDay = true →
      toLowerCaseField r.regulation = some rl →
      testNoParking rl = false →
      extractLimit r = some L →
      0 ≤ L →
      calculateCoverage r a b =
        some (min 1 (((nowMinutesOf b - nowMinutesOf a -
          coverageOverlap (parseTimeRange r.hours) (nowMinutesOf a)
            (nowMinutesOf b) (nowMinutesOf b - nowMinutesOf a) +
          min L (coverageOverlap (parseTimeRange r.hours) (nowMinutesOf a)
            (nowMinutesOf b) (nowMinutesOf b - nowMinutesOf a)) : Int) : ℚ) /
          ((nowMinutesOf b - nowMinutesOf a : Int) : ℚ))) := by
    intro r a b rl L hdur happ hrl hnp hex hL
    rw [coverage_eq_some r a b rl hrl]
    rw [coverageBody_limit (parseDays r.days) (parseTimeRange r.hours)
      a.getDay rl r (nowMinutesOf a) (nowMinutesOf b) L hdur happ hnp hex hL]
  refine ⟨hgen, ?_⟩
  have h1 := hgen recHL ⟨1, 9, 0⟩ ⟨1, 13, 0⟩ [] 120
    (by decide) (by decide) (by decide) (by decide) (by decide) (by decide)
  rw [h1]
  rw [show coverageOverlap (parseTimeRange recHL.hours) (nowMinutesOf ⟨1, 9, 0⟩)
      (nowMinutesOf ⟨1, 13, 0⟩) (nowMinutesOf ⟨1, 13, 0⟩ - nowMinutesOf ⟨1, 9, 0⟩) = 240
    from by decide]
  norm_num [nowMinutesOf, min_def]

/-- Witness for C5: the general hour-limit formula applied to the spec's
record at the Monday 09:00-13:00 query. -/
theorem c5_hour_limit_coverage_witness :
    calculateCoverage recHL ⟨1, 9, 0⟩ ⟨1, 13, 0⟩ =
      some (min 1 (((nowMinutesOf ⟨1, 13, 0⟩ - nowMinutesOf ⟨1, 9, 0⟩ -
        coverageOverlap (parseTimeRange recHL.hours) (nowMinutesOf ⟨1, 9, 0⟩)
          (nowMinutesOf ⟨1, 13, 0⟩)
          (nowMinutesOf ⟨1, 13, 0⟩ - nowMinutesOf ⟨1, 9, 0⟩) +
        min 120 (coverageOverlap (parseTimeRange recHL.hours) (nowMinutesOf ⟨1, 9, 0⟩)
          (nowMinutesOf ⟨1, 13, 0⟩)
          (nowMinutesOf ⟨1, 13, 0⟩ - nowMinutesOf ⟨1, 9, 0⟩)) : Int) : ℚ) /
        ((nowMinutesOf ⟨1, 13, 0⟩ - nowMinutesOf ⟨1, 9, 0⟩ : Int) : ℚ))) :=
  c5_hour_limit_coverage.1 recHL ⟨1, 9, 0⟩ ⟨1, 13, 0⟩ [] 120
    (by decide) (by decide) (by decide) (by decide) (by decide) (by decide)

/-- Counterexample for C6 as stated: with a zero-duration query pair (a
perfectly legal pair of `Date` arguments), a Saturday-only record on a Monday
gives `intersectsRange` false but `calculateCoverage` 0, not 1. -/
theorem c6_zero_duration_counterexample :
    intersectsRange recSA ⟨1, 10, 0⟩ ⟨1, 10, 0⟩ = false ∧
    calculateCoverage recSA ⟨1, 10, 0⟩ ⟨1, 10, 0⟩ = some 0 ∧
    calculateCoverage recSA ⟨1, 10, 0⟩ ⟨1, 10, 0⟩ ≠ some 1 := by
  refine ⟨by decide, by rfl, ?_⟩
  intro hcontra
  have h0 : calculateCoverage recSA ⟨1, 10, 0⟩ ⟨1, 10, 0⟩ = some 0 := by rfl
  rw [h0] at hcontra
  exact absurd (Option.some.inj hcontra) (by norm_num)

/-- Witness for the amended C6: a Saturday-only record queried on a Monday
hour-long interval does not intersect, and its coverage is 1. -/
theorem c6_no_intersection_witness :
    calculateCoverage recSA ⟨1, 10, 0⟩ ⟨1, 11, 0⟩ = some 1 :=
  c6_no_intersection_full_coverage recSA ⟨1, 10, 0⟩ ⟨1, 11, 0⟩ []
    (by decide) (by decide) (by decide) (by decide) (by decide)

/-- Counterexample for C7 as stated: the HHMM parser performs no range
validation, so "2500-2600" yields a window `(1500, 1560)` whose start minute
is not in `[0, 1440)`. -/
theorem c7_out_of_range_counterexample :
    parseTimeRange (.str "2500-2600") = some ⟨.num 1500, .num 1560⟩ ∧
    ¬ ((1500 : Int) < 1440) := by
  exact ⟨by decide, by norm_num⟩

/-- C7 (amended): a Format A window whose digit groups encode valid clock
times (hours below 24, minutes below 60) lies in `[0, 1440)` on both sides;
the parser itself performs no validation, so out-of-range digits produce
out-of-range minutes and every Format B window carries a `NaN` end minute;
the all-day sentinel is `(0, 1440)`. -/
theorem c7_window_bounds :
    (∀ (cs : List Char) (h1 m1 h2 m2 : Int),
      formatAParse cs = some (h1, m1, h2, m2) →
      0 ≤ h1 → h1 < 24 → 0 ≤ m1 → m1 < 60 →
      0 ≤ h2 → h2 < 24 → 0 ≤ m2 → m2 < 60 →
      formatA cs = some ⟨.num (h1 * 60 + m1), .num (h2 * 60 + m2)⟩ ∧
      0 ≤ h1 * 60 + m1 ∧ h1 * 60 + m1 < 1440 ∧
      0 ≤ h2 * 60 + m2 ∧ h2 * 60 + m2 < 1440) ∧
    (∀ c1 c2 : SideCaps, (formatBWindow c1 c2).endMin = JSNum.nan) ∧
    parseTimeRange (.str "ANYTIME") = some allDayWindow := by
  refine ⟨?_, formatBWindow_endMin_nan, by decide⟩
  intro cs h1 m1 h2 m2 hparse ha hb hc hd he hf hg hh
  refine ⟨?_, by omega, by omega, by omega, by omega⟩
  unfold formatA
  rw [hparse]
  rfl

/-- Witness for the amended C7: the bounds applied to the parse of
"0900-1800". -/
theorem c7_window_bounds_witness :
    formatA ("0900-1800".data) = some ⟨.num (9 * 60 + 0), .num (18 * 60 + 0)⟩ ∧
    0 ≤ (9 : Int) * 60 + 0 ∧ (9 : Int) * 60 + 0 < 1440 ∧
    0 ≤ (18 : Int) * 60 + 0 ∧ (18 : Int) * 60 + 0 < 1440 :=
  c7_window_bounds.1 ("0900-1800".data) 9 0 18 0 (by decide) (by decide) (by decide)
    (by decide) (by decide) (by decide) (by decide) (by decide) (by decide)

/-- C8: `parseDays` never returns an empty non-null set: every result is
`none` (Unrestricted) or a nonempty day list; a wrapped range such as
"FR-MO" contributes nothing, so inputs made only of such ranges or
unrecognized tokens degrade to `none`. -/
theorem c8_parseDays_never_empty :
    (∀ f : JSField, parseDays f = none ∨ ∃ ds, parseDays f = some ds ∧ ds ≠ []) ∧
    parseDays (.str "FR-MO") = none ∧
    parseDays (.str "FR-MO,XYZ") = none := by
  refine ⟨?_, by decide, by decide⟩
  intro f
  cases f with
  | missing => exact Or.inl rfl
  | num n => exact Or.inl rfl
  | str s =>
    simp only [parseDays]
    by_cases he : s.data.isEmpty
    · rw [if_pos he]
      exact Or.inl rfl
    · rw [if_neg he]
      by_cases hn : 0 < ((splitSeps (s.data.map Char.toUpper)).foldl processPart []).length
      · refine Or.inr ⟨_, if_pos hn, ?_⟩
        intro hnil
        rw [hnil] at hn
        simp at hn
      · exact Or.inl (if_neg hn)

/-- Counterexample for C9 as stated: a truthy numeric `regulation` field
makes `calculateCoverage` throw a `TypeError` at
`(props.regulation || '').toLowerCase()` (modelled by `none`), so not every
record with numeric fields returns a value. -/
theorem c9_numeric_regulation_counterexample :
    calculateCoverage ⟨.missing, .missing, .missing, .num 5⟩ ⟨1, 9, 0⟩ ⟨1, 10, 0⟩ =
      none := by rfl

/-- C9 (amended): `parseDays` and `parseTimeRange` degrade absent, numeric or
empty input to the permissive sentinels (`Unrestricted` days, all-day time);
`isActiveAt` and `intersectsRange` return a boolean on every input; and
`calculateCoverage` returns a value whenever the regulation field lowercases
without throwing (string, absent, or the falsy number 0). -/
theorem c9_total_and_degrades :
    parseDays .missing = none ∧
    (∀ n : Int, parseDays (.num n) = none) ∧
    parseDays (.str "") = none ∧
    parseTimeRange .missing = some allDayWindow ∧
    (∀ n : Int, parseTimeRange (.num n) = some allDayWindow) ∧
    parseTimeRange (.str "") = some allDayWindow ∧
    (∀ (r : RegRecord) (d : JSDate), isActiveAt r d = true ∨ isActiveAt r d = false) ∧
    (∀ (r : RegRecord) (a b : JSDate),
      intersectsRange r a b = true ∨ intersectsRange r a b = false) ∧
    (∀ (r : RegRecord) (a b : JSDate) (rl : List Char),
      toLowerCaseField r.regulation = some rl →
      ∃ q : ℚ, calculateCoverage r a b = some q) := by
  refine ⟨rfl, fun n => rfl, by decide, rfl, fun n => rfl, by decide, ?_, ?_, ?_⟩
  · intro r d
    cases h : isActiveAt r d
    · exact Or.inr rfl
    · exact Or.inl rfl
  · intro r a b
    cases h : intersectsRange r a b
    · exact Or.inr rfl
    · exact Or.inl rfl
  · intro r a b rl h
    exact ⟨_, coverage_eq_some r a b rl h⟩

/-- Witness for the amended C9: the coverage existence clause applied to a
record whose regulation field is absent. -/
theorem c9_total_witness :
    ∃ q : ℚ, calculateCoverage recSA ⟨1, 10, 0⟩ ⟨1, 11, 0⟩ = some q :=
  c9_total_and_degrades.2.2.2.2.2.2.2.2 recSA ⟨1, 10, 0⟩ ⟨1, 11, 0⟩ [] (by decide)

/-- C10: every input that reaches Format B (no all-day early return, Format A
failed, Format B matched) yields a window whose end minute is `NaN`, because
the destructuring reads the end hour from the start side's meridiem capture
group; such a window is inert downstream: `isActiveAt` is false whenever the
parsed window has a `NaN` end minute, and the window contributes zero overlap
minutes. -/
theorem c10_format_b_nan_window_inert :
    (∀ (s : String) (c1 c2 : SideCaps),
      timeAllDayCond s = false →
      formatA (cleanTime s.data) = none →
      formatB (cleanTime s.data) = some (c1, c2) →
      parseTimeRange (.str s) = some (formatBWindow c1 c2) ∧
      (formatBWindow c1 c2).endMin = JSNum.nan) ∧
    (∀ (r : RegRecord) (d : JSDate) (w : TimeWindow),
      parseTimeRange r.hours = some w → w.endMin = JSNum.nan →
      isActiveAt r d = false) ∧
    (∀ (w : TimeWindow) (us ue dur : Int),
      w.endMin = JSNum.nan → windowOverlap w us ue dur = 0) := by
  refine ⟨?_, isActiveAt_nan_end, windowOverlap_nan_end⟩
  intro s c1 c2 hcond hA hB
  refine ⟨?_, formatBWindow_endMin_nan c1 c2⟩
  simp only [parseTimeRange, hcond, Bool.false_eq_true, if_false, hA, hB]

/-- Witness for C10: the inert `NaN` window produced by "8am-6pm". -/
theorem c10_format_b_nan_witness :
    parseTimeRange (.str "8am-6pm") =
      some (formatBWindow ⟨['8'], none, none, some AmPm.am⟩
        ⟨['6'], none, none, some AmPm.pm⟩) ∧
    (formatBWindow ⟨['8'], none, none, some AmPm.am⟩
      ⟨['6'], none, none, some AmPm.pm⟩).endMin = JSNum.nan ∧
    isActiveAt ⟨.missing, .str "8am-6pm", .missing, .missing⟩ ⟨1, 9, 0⟩ = false ∧
    windowOverlap ⟨.num 480, .nan⟩ 480 600 120 = 0 :=
  ⟨(c10_format_b_nan_window_inert.1 "8am-6pm" ⟨['8'], none, none, some AmPm.am⟩
      ⟨['6'], none, none, some AmPm.pm⟩ (by decide) (by decide) (by decide)).1,
   (c10_format_b_nan_window_inert.1 "8am-6pm" ⟨['8'], none, none, some AmPm.am⟩
      ⟨['6'], none, none, some AmPm.pm⟩ (by decide) (by decide) (by decide)).2,
   c10_format_b_nan_window_inert.2.1 ⟨.missing, .str "8am-6pm", .missing, .missing⟩
     ⟨1, 9, 0⟩ ⟨.num 480, .nan⟩ (by decide) rfl,
   c10_format_b_nan_window_inert.2.2 ⟨.num 480, .nan⟩ 480 600 120 rfl⟩
